import Mathlib

/-!
Verification development for the `component` package of the fizzle
repository: a Manager that loads Component prototypes from JSON files,
caches them in a store keyed by a user-supplied storage name, and clones
renderable instances from them.

The Go code is shallowly embedded as pure Lean functions.  External
collaborators (the file system, `encoding/json`, the gombz mesh decoder,
the fizzle texture manager, and methods of the `Component` type that live
outside the manager file) are abstracted as fields of an `Env` record,
and every externally observable action the manager performs is recorded
in a trace of `Event`s.  Recursion through the file loader is bounded by
explicit fuel; a `none` result means the fuel ran out.
-/

namespace Fizzle

/-- A 3-vector of scalar components.  The manager only copies vector
components around (no arithmetic), so the scalar type is modelled as
`Int`. -/
abbrev Vec3 := Int × Int × Int

/-- Opaque byte-slice handles (contents of files). -/
abbrev Bytes := Nat

/-- Opaque handle for a decoded gombz mesh (`Mesh.SrcMesh`). -/
abbrev SrcMesh := Nat

/-- `Material` of a component mesh: the texture path fields read by
`LoadComponentFromBytes` (generic texture list plus diffuse / normals /
specular paths). -/
structure Material where
  textures : List String
  diffuseTexture : String
  normalsTexture : String
  specularTexture : String
deriving DecidableEq

/-- A component mesh: name, optional binary geometry file and the decoded
mesh populated by `loadMeshForComponent` when `binFile` is non-empty.
The Go `Parent` back-pointer is value-modelled by passing the owning
component's directory path explicitly. -/
structure Mesh where
  name : String
  binFile : String
  material : Material
  srcMesh : Option SrcMesh
deriving DecidableEq

/-- A child reference: a file path to another component plus a positional
override (Go `ChildRef.File`, `ChildRef.Location`). -/
structure ChildReference where
  file : String
  location : Vec3
deriving DecidableEq

/-- A component prototype as deserialized from JSON, with
`componentDirPath` set at load time (not from JSON). -/
structure Component where
  name : String
  offset : Vec3
  meshes : List Mesh
  childReferences : List ChildReference
  componentDirPath : String
deriving DecidableEq

/-- A renderable instance: a location plus attached child renderables.
GPU-level data is irrelevant to the claims and omitted. -/
inductive Renderable where
  | mk : Vec3 → List Renderable → Renderable

/-- The location of a renderable. -/
def Renderable.location : Renderable → Vec3
  | .mk l _ => l

/-- The children attached to a renderable. -/
def Renderable.children : Renderable → List Renderable
  | .mk _ c => c

/-- Externally observable actions of the manager, recorded in traces. -/
inductive Event where
  | readFile (path : String)
  | parseJson
  | readBin (path : String)
  | decodeBin (binFile : String)
  | loadTexture (key : String) (path : String) (ok : Bool)
  | insertStore (key : String)
  | childLoad (path : String) (storageName : String)
  | logChildLoadError (componentName : String) (file : String)
  | logMissingChild (componentName : String) (file : String)
  | destroyComp (componentName : String)
deriving DecidableEq

/-- The environment abstracts all external collaborators:
file system reads, JSON unmarshalling, gombz mesh decoding, the texture
manager, and the two `Component` methods defined outside the manager
file.  `loadTexture` returns `true` on success, `false` on failure. -/
structure Env where
  readFile : String → Except String Bytes
  unmarshal : Bytes → Except String Component
  decodeMesh : Bytes → Except String SrcMesh
  loadTexture : String → String → Bool
  getRenderable : Component → Renderable
  getFullTexturePath : Mesh → Nat → String

/-- The component store: Go `map[string]*Component`, modelled as an
association list with at most one live entry per key. -/
abbrev Store := List (String × Component)

/-- Map lookup (`cm.storage[name]`). -/
def storeFind : Store → String → Option Component
  | [], _ => none
  | (k, c) :: rest, key => if k = key then some c else storeFind rest key

/-- Map insert-or-overwrite (`cm.storage[name] = component`). -/
def storeInsert (st : Store) (key : String) (c : Component) : Store :=
  (key, c) :: st.filter (fun p => p.1 ≠ key)

/-- Go `filepath.Split`: splits a path immediately after the final slash
into a directory part (with trailing slash) and a file-name part. -/
def splitPath (path : String) : String × String :=
  let cs := path.toList
  let fileLen := (cs.reverse.takeWhile (fun c => c ≠ '/')).length
  (String.mk (cs.take (cs.length - fileLen)), String.mk (cs.drop (cs.length - fileLen)))

/-- Modelled from the spec: `Mesh.GetFullBinFilePath` is not under `src/`;
per the spec the binary bytes are read from `directoryPath + binFile`. -/
def getFullBinFilePath (dirPath : String) (m : Mesh) : String :=
  dirPath ++ m.binFile

/-- The error message built when a mesh binary file cannot be read
(`loadMeshForComponent`). -/
def binReadErrMsg (binFile ioErr : String) : String :=
  "Failed to load the binary file (" ++ binFile ++ ") for the ComponentMesh.\n" ++ ioErr ++ "\n"

/-- The error message built when a mesh binary file cannot be decoded
(`loadMeshForComponent`; the source misspells decode as deocde). -/
def binDecodeErrMsg (binFile decodeErr : String) : String :=
  "Failed to deocde the binary file (" ++ binFile ++ ") for the ComponentMesh.\n" ++ decodeErr ++ "\n"

/-- `loadMeshForComponent`: if the mesh names a binary file, read it from
the full bin path and decode it, storing the decoded mesh in `srcMesh`;
a read or decode failure aborts with a descriptive error. -/
def loadMeshForComponent (env : Env) (dirPath : String) (m : Mesh) :
    Except String Mesh × List Event :=
  if m.binFile.length > 0 then
    let fullPath := getFullBinFilePath dirPath m
    match env.readFile fullPath with
    | .error e => (.error (binReadErrMsg m.binFile e), [.readBin fullPath])
    | .ok binBytes =>
      match env.decodeMesh binBytes with
      | .error e => (.error (binDecodeErrMsg m.binFile e), [.readBin fullPath, .decodeBin m.binFile])
      | .ok sm => (.ok { m with srcMesh := some sm }, [.readBin fullPath, .decodeBin m.binFile])
  else (.ok m, [])

/-- The mesh-loading loop of `LoadComponentFromBytes` (lines 156-162):
load each mesh in order and abort on the first failure. -/
def loadMeshes (env : Env) (dirPath : String) : List Mesh → Except String (List Mesh) × List Event
  | [] => (.ok [], [])
  | m :: rest =>
    match loadMeshForComponent env dirPath m with
    | (.error e, tr) => (.error e, tr)
    | (.ok m1, tr) =>
      match loadMeshes env dirPath rest with
      | (.error e, tr2) => (.error e, tr ++ tr2)
      | (.ok ms, tr2) => (.ok (m1 :: ms), tr ++ tr2)

/-- The texture requests one mesh makes (lines 166-197): the generic
texture list resolved through the mesh path accessor, then diffuse,
normals and specular resolved against the component directory, each
requested only when the path is non-empty.  Failures are only logged. -/
def textureEventsForMesh (env : Env) (dirPath : String) (m : Mesh) : List Event :=
  (List.range m.material.textures.length).map (fun i =>
      let tex := m.material.textures.getD i ""
      Event.loadTexture tex (env.getFullTexturePath m i)
        (env.loadTexture tex (env.getFullTexturePath m i)))
    ++ (if m.material.diffuseTexture.length > 0 then
        [Event.loadTexture m.material.diffuseTexture (dirPath ++ m.material.diffuseTexture)
          (env.loadTexture m.material.diffuseTexture (dirPath ++ m.material.diffuseTexture))]
      else [])
    ++ (if m.material.normalsTexture.length > 0 then
        [Event.loadTexture m.material.normalsTexture (dirPath ++ m.material.normalsTexture)
          (env.loadTexture m.material.normalsTexture (dirPath ++ m.material.normalsTexture))]
      else [])
    ++ (if m.material.specularTexture.length > 0 then
        [Event.loadTexture m.material.specularTexture (dirPath ++ m.material.specularTexture)
          (env.loadTexture m.material.specularTexture (dirPath ++ m.material.specularTexture))]
      else [])

/-- The texture-loading loop of `LoadComponentFromBytes` (lines 165-198):
texture requests for every mesh; never aborts the load. -/
def loadTextures (env : Env) (dirPath : String) (meshes : List Mesh) : List Event :=
  (meshes.map (textureEventsForMesh env dirPath)).flatten

/-- The result of a load call: the Go `(component, error)` pair plus the
resulting store and the trace of observable actions. -/
abbrev LoadResult := Except String Component × Store × List Event

/-- The child-reference loop of `LoadComponentFromBytes` (lines 206-216),
parameterized by the recursive file loader `childLoad` (which already
carries the parent's storage name): for each reference, skip it when its
base file name is already a store key, otherwise invoke the recursive
load on `dirPath + file`; a failed child load is only logged. -/
def loadChildrenAux (childLoad : Store → String → Option LoadResult) :
    Store → List ChildReference → String → String → String → Option (Store × List Event)
  | st, [], _, _, _ => some (st, [])
  | st, childRef :: rest, dirPath, storageName, compName =>
    match storeFind st (splitPath childRef.file).2 with
    | some _ => loadChildrenAux childLoad st rest dirPath storageName compName
    | none =>
      match childLoad st (dirPath ++ childRef.file) with
      | none => none
      | some (res, st1, tr) =>
        match loadChildrenAux childLoad st1 rest dirPath storageName compName with
        | none => none
        | some (st2, tr2) =>
          some (st2, Event.childLoad (dirPath ++ childRef.file) storageName ::
            (tr ++ (match res with
                    | .error _ => [Event.logChildLoadError compName childRef.file]
                    | .ok _ => []) ++ tr2))

/-- The body of `LoadComponentFromBytes` (lines 145-220), parameterized
by the recursive file loader used for child references: unmarshal the
JSON, set the directory path, load the meshes (fail fast), request the
textures (failures logged only), insert the component into the store
under `storageName`, then process the child references. -/
def loadBytesAux (childLoad : Store → String → Option LoadResult) (env : Env)
    (st : Store) (jsonBytes : Bytes) (storageName : String) (componentDirPath : String) :
    Option LoadResult :=
  match env.unmarshal jsonBytes with
  | .error e =>
    some (.error ("Failed to decode the JSON in the component file specified.\n" ++ e ++ "\n"),
      st, [.parseJson])
  | .ok parsed =>
    let comp0 := { parsed with componentDirPath := componentDirPath }
    match loadMeshes env componentDirPath comp0.meshes with
    | (.error e, mtr) => some (.error e, st, .parseJson :: mtr)
    | (.ok ms, mtr) =>
      let component := { comp0 with meshes := ms }
      let ttr := loadTextures env componentDirPath component.meshes
      let st1 := storeInsert st storageName component
      match loadChildrenAux childLoad st1 component.childReferences componentDirPath
          storageName component.name with
      | none => none
      | some (st2, ctr) =>
        some (.ok component, st2,
          .parseJson :: (mtr ++ ttr ++ .insertStore storageName :: ctr))

/-- `Manager.LoadComponentFromFile` (lines 123-139) with explicit fuel
bounding the recursion depth (`none` = fuel exhausted): split off the
directory path, return the stored component if `storageName` is already
a key, otherwise read the file and load from its bytes; child references
recurse into this function with the same `storageName`. -/
def loadComponentFromFile : Nat → Env → Store → String → String → Option LoadResult
  | 0, _, _, _, _ => none
  | fuel + 1, env, st, filename, storageName =>
    let componentDirPath := (splitPath filename).1
    match storeFind st storageName with
    | some loadedComp => some (.ok loadedComp, st, [])
    | none =>
      match env.readFile filename with
      | .error e =>
        some (.error ("Failed to read the component file specified.\n" ++ e ++ "\n"),
          st, [.readFile filename])
      | .ok jsonBytes =>
        match loadBytesAux (fun st1 path => loadComponentFromFile fuel env st1 path storageName)
            env st jsonBytes storageName componentDirPath with
        | none => none
        | some (res, st1, tr) => some (res, st1, .readFile filename :: tr)

/-- `Manager.LoadComponentFromBytes` (lines 145-220): the loader body,
with child references loaded through `LoadComponentFromFile` at the
given fuel, passing the parent's own `storageName`. -/
def loadComponentFromBytes (fuel : Nat) (env : Env) (st : Store) (jsonBytes : Bytes)
    (storageName : String) (componentDirPath : String) : Option LoadResult :=
  loadBytesAux (fun st1 path => loadComponentFromFile fuel env st1 path storageName)
    env st jsonBytes storageName componentDirPath

/-- The child-cloning loop of `GetRenderableInstance` (lines 97-115),
parameterized by the recursive instancer `inst`: for each child
reference, look up the referenced component by base file name; when it is
missing, log an error and continue; otherwise instance it recursively,
overwrite its location with the reference's location, and attach it. -/
def instanceChildren (inst : Component → Option (Renderable × List Event)) (st : Store) :
    List ChildReference → String → Option (List Renderable × List Event)
  | [], _ => some ([], [])
  | cref :: rest, compName =>
    match storeFind st (splitPath cref.file).2 with
    | none =>
      match instanceChildren inst st rest compName with
      | none => none
      | some (ks, tr) => some (ks, Event.logMissingChild compName cref.file :: tr)
    | some crComponent =>
      match inst crComponent with
      | none => none
      | some (rc, tr) =>
        match instanceChildren inst st rest compName with
        | none => none
        | some (ks, tr2) =>
          some (Renderable.mk cref.location rc.children :: ks, tr ++ tr2)

/-- `Manager.GetRenderableInstance` (lines 92-118) with explicit fuel:
clone the component's canonical renderable and attach a recursively
cloned instance for every resolvable child reference. -/
def getRenderableInstance : Nat → Env → Store → Component → Option (Renderable × List Event)
  | 0, _, _, _ => none
  | fuel + 1, env, st, component =>
    let r := env.getRenderable component
    match instanceChildren (getRenderableInstance fuel env st) st
        component.childReferences component.name with
    | none => none
    | some (kids, tr) => some (Renderable.mk r.location (r.children ++ kids), tr)

/-- `Manager.GetComponent` (lines 84-87): exact-key lookup plus a found
flag. -/
def getComponent (st : Store) (name : String) : Option Component × Bool :=
  (storeFind st name, (storeFind st name).isSome)

/-- `Manager.Destroy` (lines 61-66): destroy every stored component
(recorded as `destroyComp` events; `Component.Destroy` itself lives
outside the manager file) and reset the store to empty. -/
def managerDestroy (st : Store) : Store × List Event :=
  ([], st.map (fun p => Event.destroyComp p.2.name))

/-! ### Concrete data used to exercise the model -/

/-- The zero vector (Go zero value of a `[3]float32` field). -/
def zeroVec : Vec3 := (0, 0, 0)

/-- A material with no texture references. -/
def noMaterial : Material := ⟨[], "", "", ""⟩

/-- A canonical renderable with no children at the origin. -/
def defaultRenderable : Renderable := .mk zeroVec []

/-- Component `A` of a mutually referencing pair: its file references
`b.json`. -/
def cycCompA : Component := ⟨"A", zeroVec, [], [⟨"b.json", zeroVec⟩], ""⟩

/-- Component `B` of a mutually referencing pair: its file references
`a.json` back. -/
def cycCompB : Component := ⟨"B", zeroVec, [], [⟨"a.json", zeroVec⟩], ""⟩

/-- An environment holding the two mutually referencing component files
`a.json` and `b.json`. -/
def cycEnv : Env where
  readFile := fun p =>
    if p = "a.json" then .ok 1 else if p = "b.json" then .ok 2 else .error "no such file"
  unmarshal := fun b =>
    if b = 1 then .ok cycCompA else if b = 2 then .ok cycCompB else .error "bad json"
  decodeMesh := fun _ => .ok 0
  loadTexture := fun _ _ => true
  getRenderable := fun _ => defaultRenderable
  getFullTexturePath := fun _ _ => ""

/-! ### Helper lemmas about the store -/

theorem storeFind_insert_self (st : Store) (k : String) (c : Component) :
    storeFind (storeInsert st k c) k = some c := by
  simp [storeInsert, storeFind]

theorem storeFind_mem {st : Store} {k : String} {c : Component}
    (h : storeFind st k = some c) : (k, c) ∈ st := by
  induction st with
  | nil => simp [storeFind] at h
  | cons p rest ih =>
    obtain ⟨k1, c1⟩ := p
    by_cases hk : k1 = k
    · subst hk
      simp [storeFind] at h
      simp [h]
    · simp [storeFind, hk] at h
      exact List.mem_cons_of_mem _ (ih h)

/-! ### Helper lemmas about loading -/

/-- Cache-hit behavior of the file loader: when the storage name is
already a key, the stored component is returned with the store unchanged
and an empty trace. -/
theorem loadComponentFromFile_hit (fuel : Nat) (env : Env) (st : Store)
    (filename storageName : String) (c : Component)
    (h : storeFind st storageName = some c) :
    loadComponentFromFile (fuel + 1) env st filename storageName = some (.ok c, st, []) := by
  simp [loadComponentFromFile, h]

/-- Closed form of the child-reference events a load produces: one
`childLoad` event per reference whose base file name is not yet a store
key, targeting `dirPath ++ file` under the parent's `storageName`. -/
def childLoadTrace (st : Store) (dirPath storageName : String)
    (refs : List ChildReference) : List Event :=
  refs.filterMap (fun ref =>
    if (storeFind st (splitPath ref.file).2).isSome then none
    else some (Event.childLoad (dirPath ++ ref.file) storageName))

/-- When the parent's storage name is already stored, the child loop
leaves the store untouched and its trace is `childLoadTrace`: every
recursive child load hits the cache immediately. -/
theorem loadChildrenAux_stored (fuel : Nat) (env : Env) (storageName : String)
    (c : Component) :
    ∀ (refs : List ChildReference) (st : Store) (dirPath compName : String),
    storeFind st storageName = some c →
    loadChildrenAux (fun st1 path => loadComponentFromFile (fuel + 1) env st1 path storageName)
        st refs dirPath storageName compName =
      some (st, childLoadTrace st dirPath storageName refs) := by
  intro refs
  induction refs with
  | nil =>
    intro st dirPath compName h
    simp [loadChildrenAux, childLoadTrace]
  | cons ref rest ih =>
    intro st dirPath compName h
    by_cases hb : (storeFind st (splitPath ref.file).2).isSome
    · obtain ⟨cb, hcb⟩ := Option.isSome_iff_exists.mp hb
      simp [loadChildrenAux, hcb, ih st dirPath compName h, childLoadTrace, hb]
    · have hn : storeFind st (splitPath ref.file).2 = none :=
        Option.not_isSome_iff_eq_none.mp hb
      simp [loadChildrenAux, hn, loadComponentFromFile_hit fuel env st _ storageName c h,
        ih st dirPath compName h, childLoadTrace, hb]

/-- Success path of `LoadComponentFromBytes`: when the JSON unmarshals
and every mesh loads, the component is built, inserted under
`storageName`, the children are processed without changing the store,
and the full trace has the closed form below. -/
theorem loadComponentFromBytes_success (fuel : Nat) (env : Env) (st : Store)
    (bytes : Bytes) (storageName dirPath : String) (parsed : Component)
    (ms : List Mesh) (mtr : List Event)
    (hU : env.unmarshal bytes = .ok parsed)
    (hM : loadMeshes env dirPath parsed.meshes = (.ok ms, mtr)) :
    loadComponentFromBytes (fuel + 1) env st bytes storageName dirPath =
      some (.ok { parsed with componentDirPath := dirPath, meshes := ms },
        storeInsert st storageName { parsed with componentDirPath := dirPath, meshes := ms },
        .parseJson :: (mtr ++ loadTextures env dirPath ms ++
          .insertStore storageName ::
            childLoadTrace
              (storeInsert st storageName
                { parsed with componentDirPath := dirPath, meshes := ms })
              dirPath storageName parsed.childReferences)) := by
  have hins := storeFind_insert_self st storageName
    { parsed with componentDirPath := dirPath, meshes := ms }
  simp only [loadComponentFromBytes, loadBytesAux, hU, hM]
  rw [loadChildrenAux_stored fuel env storageName _ parsed.childReferences _ dirPath parsed.name hins]

/-- Mesh-failure path of `LoadComponentFromBytes`: when the JSON
unmarshals but some mesh fails to load, the error propagates and the
store is returned unchanged. -/
theorem loadComponentFromBytes_meshError (fuel : Nat) (env : Env) (st : Store)
    (bytes : Bytes) (storageName dirPath : String) (parsed : Component)
    (e : String) (mtr : List Event)
    (hU : env.unmarshal bytes = .ok parsed)
    (hM : loadMeshes env dirPath parsed.meshes = (.error e, mtr)) :
    loadComponentFromBytes fuel env st bytes storageName dirPath =
      some (.error e, st, .parseJson :: mtr) := by
  simp [loadComponentFromBytes, loadBytesAux, hU, hM]

/-- Every error of `loadMeshForComponent` comes from a non-empty
`binFile` and is the read-failure or decode-failure message for it. -/
theorem loadMeshForComponent_error (env : Env) (dirPath : String) (m : Mesh)
    (e1 : String) (tr1 : List Event)
    (h : loadMeshForComponent env dirPath m = (.error e1, tr1)) :
    0 < m.binFile.length ∧
      ((∃ io, e1 = binReadErrMsg m.binFile io) ∨ (∃ de, e1 = binDecodeErrMsg m.binFile de)) := by
  by_cases hb : m.binFile.length > 0
  · cases hr : env.readFile (getFullBinFilePath dirPath m) with
    | error io =>
      simp only [loadMeshForComponent, if_pos hb, hr] at h
      simp at h
      exact ⟨hb, Or.inl ⟨io, h.1.symm⟩⟩
    | ok bb =>
      cases hd : env.decodeMesh bb with
      | error de =>
        simp only [loadMeshForComponent, if_pos hb, hr, hd] at h
        simp at h
        exact ⟨hb, Or.inr ⟨de, h.1.symm⟩⟩
      | ok sm =>
        simp only [loadMeshForComponent, if_pos hb, hr, hd] at h
        simp at h
  · simp only [loadMeshForComponent, if_neg hb] at h
    simp at h

/-- Every error `loadMeshes` produces comes from some mesh with a
non-empty `binFile`, and is either the read-failure or the
decode-failure message for that mesh's bin file. -/
theorem loadMeshes_error (env : Env) (dirPath : String) :
    ∀ (ms : List Mesh) (e : String) (tr : List Event),
    loadMeshes env dirPath ms = (.error e, tr) →
    ∃ m ∈ ms, 0 < m.binFile.length ∧
      ((∃ io, e = binReadErrMsg m.binFile io) ∨ (∃ de, e = binDecodeErrMsg m.binFile de)) := by
  intro ms
  induction ms with
  | nil =>
    intro e tr h
    simp [loadMeshes] at h
  | cons m rest ih =>
    intro e tr h
    simp only [loadMeshes] at h
    cases hmc : loadMeshForComponent env dirPath m with
    | mk r1 tr1 =>
      rw [hmc] at h
      cases r1 with
      | error e1 =>
        simp at h
        obtain ⟨hlen, hshape⟩ := loadMeshForComponent_error env dirPath m e1 tr1 hmc
        refine ⟨m, List.mem_cons_self m rest, hlen, ?_⟩
        rw [← h.1]
        exact hshape
      | ok m1 =>
        cases hrest : loadMeshes env dirPath rest with
        | mk r2 tr2 =>
          rw [hrest] at h
          cases r2 with
          | error e2 =>
            simp at h
            obtain ⟨m2, hm2, hlen, hshape⟩ := ih e2 tr2 hrest
            refine ⟨m2, List.mem_cons_of_mem m hm2, hlen, ?_⟩
            rw [← h.1]
            exact hshape
          | ok ms2 => simp at h

/-! ### Classifying trace events -/

/-- Recognizer for recursive child-load invocation events. -/
def isChildLoad : Event → Bool
  | .childLoad _ _ => true
  | _ => false

theorem loadMeshForComponent_no_childLoad (env : Env) (dirPath : String) (m : Mesh) :
    ∀ e ∈ (loadMeshForComponent env dirPath m).2, isChildLoad e = false := by
  intro e he
  by_cases hb : m.binFile.length > 0
  · cases hr : env.readFile (getFullBinFilePath dirPath m) with
    | error io =>
      simp only [loadMeshForComponent, if_pos hb, hr] at he
      simp at he
      subst he
      rfl
    | ok bb =>
      cases hd : env.decodeMesh bb with
      | error de =>
        simp only [loadMeshForComponent, if_pos hb, hr, hd] at he
        simp at he
        rcases he with rfl | rfl <;> rfl
      | ok sm =>
        simp only [loadMeshForComponent, if_pos hb, hr, hd] at he
        simp at he
        rcases he with rfl | rfl <;> rfl
  · simp only [loadMeshForComponent, if_neg hb] at he
    simp at he

theorem loadMeshes_no_childLoad (env : Env) (dirPath : String) :
    ∀ (ms : List Mesh), ∀ e ∈ (loadMeshes env dirPath ms).2, isChildLoad e = false := by
  intro ms
  induction ms with
  | nil =>
    intro e he
    simp [loadMeshes] at he
  | cons m rest ih =>
    intro e he
    simp only [loadMeshes] at he
    cases hmc : loadMeshForComponent env dirPath m with
    | mk r1 tr1 =>
      rw [hmc] at he
      have h1 : ∀ x ∈ tr1, isChildLoad x = false := by
        intro x hx
        exact loadMeshForComponent_no_childLoad env dirPath m x (by rw [hmc]; exact hx)
      cases r1 with
      | error e1 =>
        simp at he
        exact h1 e he
      | ok m1 =>
        cases hrest : loadMeshes env dirPath rest with
        | mk r2 tr2 =>
          rw [hrest] at he
          have h2 : ∀ x ∈ tr2, isChildLoad x = false := by
            intro x hx
            exact ih x (by rw [hrest]; exact hx)
          cases r2 with
          | error e2 =>
            simp at he
            rcases he with he | he
            · exact h1 e he
            · exact h2 e he
          | ok ms2 =>
            simp at he
            rcases he with he | he
            · exact h1 e he
            · exact h2 e he

theorem textureEventsForMesh_no_childLoad (env : Env) (dirPath : String) (m : Mesh) :
    ∀ e ∈ textureEventsForMesh env dirPath m, isChildLoad e = false := by
  intro e he
  simp only [textureEventsForMesh, List.mem_append] at he
  rcases he with ((he | he) | he) | he
  · obtain ⟨i, hi, rfl⟩ := List.mem_map.mp he
    rfl
  · by_cases hc : m.material.diffuseTexture.length > 0
    · rw [if_pos hc] at he
      simp at he
      subst he
      rfl
    · rw [if_neg hc] at he
      simp at he
  · by_cases hc : m.material.normalsTexture.length > 0
    · rw [if_pos hc] at he
      simp at he
      subst he
      rfl
    · rw [if_neg hc] at he
      simp at he
  · by_cases hc : m.material.specularTexture.length > 0
    · rw [if_pos hc] at he
      simp at he
      subst he
      rfl
    · rw [if_neg hc] at he
      simp at he

theorem loadTextures_no_childLoad (env : Env) (dirPath : String) (ms : List Mesh) :
    ∀ e ∈ loadTextures env dirPath ms, isChildLoad e = false := by
  intro e he
  simp only [loadTextures, List.mem_flatten] at he
  obtain ⟨l, hl, hel⟩ := he
  obtain ⟨m, hm, rfl⟩ := List.mem_map.mp hl
  exact textureEventsForMesh_no_childLoad env dirPath m e hel

theorem childLoadTrace_all_childLoad (st : Store) (dirPath storageName : String)
    (refs : List ChildReference) :
    ∀ e ∈ childLoadTrace st dirPath storageName refs, isChildLoad e = true := by
  intro e he
  simp only [childLoadTrace, List.mem_filterMap] at he
  obtain ⟨ref, href, hre⟩ := he
  by_cases hb : (storeFind st (splitPath ref.file).2).isSome
  · rw [if_pos hb] at hre
    simp at hre
  · rw [if_neg hb] at hre
    simp at hre
    subst hre
    rfl

/-! ### Helper lemmas about instancing -/

/-- Every renderable the child loop produces comes from a resolvable
child reference and carries that reference's location. -/
theorem instanceChildren_mem (inst : Component → Option (Renderable × List Event)) (st : Store) :
    ∀ (refs : List ChildReference) (compName : String) (ks : List Renderable) (tr : List Event),
    instanceChildren inst st refs compName = some (ks, tr) →
    ∀ k ∈ ks, ∃ cref ∈ refs, ∃ cc rc tr1,
      storeFind st (splitPath cref.file).2 = some cc ∧ inst cc = some (rc, tr1) ∧
      k = Renderable.mk cref.location rc.children := by
  intro refs
  induction refs with
  | nil =>
    intro compName ks tr h k hk
    simp only [instanceChildren, Option.some.injEq, Prod.mk.injEq] at h
    obtain ⟨h1, h2⟩ := h
    rw [← h1] at hk
    simp at hk
  | cons cref rest ih =>
    intro compName ks tr h k hk
    cases hf : storeFind st (splitPath cref.file).2 with
    | none =>
      cases hrest : instanceChildren inst st rest compName with
      | none => simp [instanceChildren, hf, hrest] at h
      | some p =>
        obtain ⟨ks2, tr2⟩ := p
        simp only [instanceChildren, hf, hrest, Option.some.injEq, Prod.mk.injEq] at h
        obtain ⟨h1, h2⟩ := h
        obtain ⟨cref2, hm, rest2⟩ := ih compName ks2 tr2 hrest k (by rw [h1]; exact hk)
        exact ⟨cref2, List.mem_cons_of_mem _ hm, rest2⟩
    | some cc =>
      cases hic : inst cc with
      | none => simp [instanceChildren, hf, hic] at h
      | some p =>
        obtain ⟨rc, tr1⟩ := p
        cases hrest : instanceChildren inst st rest compName with
        | none => simp [instanceChildren, hf, hic, hrest] at h
        | some p2 =>
          obtain ⟨ks2, tr2⟩ := p2
          simp only [instanceChildren, hf, hic, hrest, Option.some.injEq, Prod.mk.injEq] at h
          obtain ⟨h1, h2⟩ := h
          rw [← h1] at hk
          rcases List.mem_cons.mp hk with rfl | hk2
          · exact ⟨cref, List.mem_cons_self _ _, cc, rc, tr1, hf, hic, rfl⟩
          · obtain ⟨cref2, hm, rest2⟩ := ih compName ks2 tr2 hrest k hk2
            exact ⟨cref2, List.mem_cons_of_mem _ hm, rest2⟩

/-- Every unresolvable child reference is reported with a
`logMissingChild` event in the child loop's trace. -/
theorem instanceChildren_missing_log (inst : Component → Option (Renderable × List Event))
    (st : Store) :
    ∀ (refs : List ChildReference) (compName : String) (ks : List Renderable) (tr : List Event),
    instanceChildren inst st refs compName = some (ks, tr) →
    ∀ cref ∈ refs, storeFind st (splitPath cref.file).2 = none →
      Event.logMissingChild compName cref.file ∈ tr := by
  intro refs
  induction refs with
  | nil =>
    intro compName ks tr h cref hm
    simp at hm
  | cons cref0 rest ih =>
    intro compName ks tr h cref hm hnone
    cases hf : storeFind st (splitPath cref0.file).2 with
    | none =>
      cases hrest : instanceChildren inst st rest compName with
      | none => simp [instanceChildren, hf, hrest] at h
      | some p =>
        obtain ⟨ks2, tr2⟩ := p
        simp only [instanceChildren, hf, hrest, Option.some.injEq, Prod.mk.injEq] at h
        obtain ⟨h1, h2⟩ := h
        rw [← h2]
        rcases List.mem_cons.mp hm with rfl | hm2
        · exact List.mem_cons_self _ _
        · exact List.mem_cons_of_mem _ (ih compName ks2 tr2 hrest cref hm2 hnone)
    | some cc =>
      cases hic : inst cc with
      | none => simp [instanceChildren, hf, hic] at h
      | some p =>
        obtain ⟨rc, tr1⟩ := p
        cases hrest : instanceChildren inst st rest compName with
        | none => simp [instanceChildren, hf, hic, hrest] at h
        | some p2 =>
          obtain ⟨ks2, tr2⟩ := p2
          simp only [instanceChildren, hf, hic, hrest, Option.some.injEq, Prod.mk.injEq] at h
          obtain ⟨h1, h2⟩ := h
          rw [← h2]
          rcases List.mem_cons.mp hm with rfl | hm2
          · rw [hf] at hnone
            cases hnone
          · exact List.mem_append_right _ (ih compName ks2 tr2 hrest cref hm2 hnone)

/-- The child loop produces exactly one renderable per resolvable child
reference. -/
theorem instanceChildren_length (inst : Component → Option (Renderable × List Event))
    (st : Store) :
    ∀ (refs : List ChildReference) (compName : String) (ks : List Renderable) (tr : List Event),
    instanceChildren inst st refs compName = some (ks, tr) →
    ks.length =
      (refs.filter (fun cref => (storeFind st (splitPath cref.file).2).isSome)).length := by
  intro refs
  induction refs with
  | nil =>
    intro compName ks tr h
    simp only [instanceChildren, Option.some.injEq, Prod.mk.injEq] at h
    rw [← h.1]
    simp
  | cons cref rest ih =>
    intro compName ks tr h
    cases hf : storeFind st (splitPath cref.file).2 with
    | none =>
      cases hrest : instanceChildren inst st rest compName with
      | none => simp [instanceChildren, hf, hrest] at h
      | some p =>
        obtain ⟨ks2, tr2⟩ := p
        simp only [instanceChildren, hf, hrest, Option.some.injEq, Prod.mk.injEq] at h
        rw [← h.1, List.filter_cons_of_neg (by simp [hf])]
        exact ih compName ks2 tr2 hrest
    | some cc =>
      cases hic : inst cc with
      | none => simp [instanceChildren, hf, hic] at h
      | some p =>
        obtain ⟨rc, tr1⟩ := p
        cases hrest : instanceChildren inst st rest compName with
        | none => simp [instanceChildren, hf, hic, hrest] at h
        | some p2 =>
          obtain ⟨ks2, tr2⟩ := p2
          simp only [instanceChildren, hf, hic, hrest, Option.some.injEq, Prod.mk.injEq] at h
          rw [← h.1, List.filter_cons_of_pos (by simp [hf])]
          simp [ih compName ks2 tr2 hrest]

/-- When every resolvable child is a leaf component (no child references
of its own), the child loop succeeds with any instancer fuel. -/
theorem instanceChildren_total_of_leaf (env : Env) (st : Store) :
    ∀ (refs : List ChildReference) (compName : String) (fuel : Nat),
    (∀ cref ∈ refs, ∀ cc, storeFind st (splitPath cref.file).2 = some cc →
      cc.childReferences = []) →
    ∃ ks tr, instanceChildren (getRenderableInstance (fuel + 1) env st) st refs compName =
      some (ks, tr) := by
  intro refs
  induction refs with
  | nil =>
    intro compName fuel hleaf
    exact ⟨[], [], rfl⟩
  | cons cref rest ih =>
    intro compName fuel hleaf
    obtain ⟨ks2, tr2, hrest⟩ :=
      ih compName fuel (fun c hc => hleaf c (List.mem_cons_of_mem _ hc))
    cases hf : storeFind st (splitPath cref.file).2 with
    | none =>
      exact ⟨ks2, Event.logMissingChild compName cref.file :: tr2, by
        simp [instanceChildren, hf, hrest]⟩
    | some cc =>
      have hcc : cc.childReferences = [] := hleaf cref (List.mem_cons_self _ _) cc hf
      have hinst : getRenderableInstance (fuel + 1) env st cc =
          some (Renderable.mk (env.getRenderable cc).location
            (env.getRenderable cc).children, []) := by
        simp [getRenderableInstance, hcc, instanceChildren]
      exact ⟨Renderable.mk cref.location (env.getRenderable cc).children :: ks2, tr2, by
        simp [instanceChildren, hf, hinst, hrest, Renderable.children]⟩

/-- Unfolding of `getRenderableInstance` at positive fuel. -/
theorem getRenderableInstance_succ (fuel : Nat) (env : Env) (st : Store)
    (component : Component) :
    getRenderableInstance (fuel + 1) env st component =
      match instanceChildren (getRenderableInstance fuel env st) st
          component.childReferences component.name with
      | none => none
      | some (kids, tr) =>
        some (Renderable.mk (env.getRenderable component).location
          ((env.getRenderable component).children ++ kids), tr) := rfl

/-! ### Further concrete data for witnesses and counterexamples -/

/-- A sentinel component sitting in the store before a load. -/
def oldComp : Component := ⟨"old", zeroVec, [], [], ""⟩

/-- A distinct component that byte slice `7` deserializes to. -/
def newComp : Component := ⟨"new", zeroVec, [], [], ""⟩

/-- Environment for the bytes-reload counterexample. -/
def reloadEnv : Env where
  readFile := fun _ => .error "no such file"
  unmarshal := fun b => if b = 7 then .ok newComp else .error "bad json"
  decodeMesh := fun _ => .ok 0
  loadTexture := fun _ _ => true
  getRenderable := fun _ => defaultRenderable
  getFullTexturePath := fun _ _ => ""

/-- A mesh with no binary file (always loads). -/
def meshOk : Mesh := ⟨"top", "", noMaterial, none⟩

/-- A mesh whose binary file is unreadable in `c3env`. -/
def meshBad : Mesh := ⟨"body", "x.bin", noMaterial, none⟩

/-- A component whose failing mesh sits at index 1. -/
def comp31 : Component := ⟨"broken", zeroVec, [meshOk, meshBad], [], ""⟩

/-- A component whose failing mesh sits at index 0. -/
def comp32 : Component := ⟨"broken", zeroVec, [meshBad], [], ""⟩

/-- Environment where every file read fails: byte slices `1` and `2`
deserialize to `comp31` and `comp32`. -/
def c3env : Env where
  readFile := fun _ => .error "no such file"
  unmarshal := fun b =>
    if b = 1 then .ok comp31 else if b = 2 then .ok comp32 else .error "bad json"
  decodeMesh := fun _ => .ok 0
  loadTexture := fun _ _ => true
  getRenderable := fun _ => defaultRenderable
  getFullTexturePath := fun _ _ => ""

/-- A mesh with an unresolvable diffuse texture path. -/
def texMesh : Mesh := ⟨"skin", "", ⟨[], "skin.png", "", ""⟩, none⟩

/-- A component whose only mesh references a diffuse texture. -/
def texComp : Component := ⟨"Tex", zeroVec, [texMesh], [], ""⟩

/-- Environment where every texture load fails: byte slice `3`
deserializes to `texComp`. -/
def texEnv : Env where
  readFile := fun _ => .error "no such file"
  unmarshal := fun b => if b = 3 then .ok texComp else .error "bad json"
  decodeMesh := fun _ => .error "gombz"
  loadTexture := fun _ _ => false
  getRenderable := fun _ => defaultRenderable
  getFullTexturePath := fun _ _ => ""

/-- A leaf child component with no references of its own. -/
def childLeaf : Component := ⟨"Leg", zeroVec, [], [], ""⟩

/-- A parent component with one resolvable child reference (location
override (1,2,3)) and one unresolvable reference. -/
def parentComp : Component :=
  ⟨"Table", zeroVec, [], [⟨"leg.json", (1, 2, 3)⟩, ⟨"ghost.json", (4, 5, 6)⟩], ""⟩

/-- A component with a single resolvable child reference whose location
override is the zero vector. -/
def zeroRefComp : Component := ⟨"Z", zeroVec, [], [⟨"leg.json", zeroVec⟩], ""⟩

/-- A store holding only the leaf child under its base file name. -/
def instStore : Store := [("leg.json", childLeaf)]

/-- Environment whose canonical renderable for the leaf child sits at
(7,8,9), distinct from every reference override. -/
def instEnv : Env where
  readFile := fun _ => .error "no such file"
  unmarshal := fun _ => .error "bad json"
  decodeMesh := fun _ => .ok 0
  loadTexture := fun _ _ => true
  getRenderable := fun c => if c.name = "Leg" then Renderable.mk (7, 8, 9) [] else defaultRenderable
  getFullTexturePath := fun _ _ => ""

/-- A component with child references [leg.json (stored already),
sub/new.json (not stored)], deserialized from byte slice `9`. -/
def c4Comp : Component :=
  ⟨"P", zeroVec, [], [⟨"leg.json", zeroVec⟩, ⟨"sub/new.json", zeroVec⟩], ""⟩

/-- Environment for the child-skip witness: byte slice `9` deserializes
to `c4Comp`; every file read fails. -/
def c4env : Env where
  readFile := fun _ => .error "no such file"
  unmarshal := fun b => if b = 9 then .ok c4Comp else .error "bad json"
  decodeMesh := fun _ => .ok 0
  loadTexture := fun _ _ => true
  getRenderable := fun _ => defaultRenderable
  getFullTexturePath := fun _ _ => ""

/-- A store with the two cyclic components registered. -/
def demoStore : Store := [("a.json", cycCompA), ("b.json", cycCompB)]

/-! ### Claim theorems -/

/-- C1: on the mutually referencing pair `a.json` / `b.json`, loading
`A` via `LoadComponentFromFile` terminates, but only `A` ends up
registered: the recursive child load is invoked with the parent's
`storageName`, finds it already stored, and returns at once, so
`b.json` is never even read and `B` is never registered — contrary to
the claim (and to the loader's own stated intent to load child
components). -/
theorem c1_cycle_only_parent_registered :
    loadComponentFromFile 5 cycEnv [] "a.json" "a.json" =
      some (.ok cycCompA, [("a.json", cycCompA)],
        [.readFile "a.json", .parseJson, .insertStore "a.json",
         .childLoad "b.json" "a.json"]) ∧
    storeFind [("a.json", cycCompA)] "b.json" = none ∧
    Event.readFile "b.json" ∉
      [Event.readFile "a.json", Event.parseJson, Event.insertStore "a.json",
       Event.childLoad "b.json" "a.json"] :=
  ⟨rfl, rfl, by decide⟩

/-- C2 counterexample: `LoadComponentFromBytes` performs no
already-loaded check: with `"k"` already a store key, it re-parses the
bytes and overwrites the stored component instead of returning it, so
the claim fails for the bytes variant. -/
theorem c2_bytes_overwrite_counterexample :
    loadComponentFromBytes 1 reloadEnv [("k", oldComp)] 7 "k" "" =
      some (.ok newComp, [("k", newComp)], [.parseJson, .insertStore "k"]) ∧
    newComp ≠ oldComp ∧
    Event.parseJson ∈ [Event.parseJson, Event.insertStore "k"] :=
  ⟨rfl, by decide, by decide⟩

/-- C2 (amended): the idempotent-load contract holds for
`LoadComponentFromFile` only: when `storageName` is already a key, the
call returns exactly the component currently stored under it (whatever
mutations it received since the first load), performs no file read or
parse (empty trace), and leaves the store unchanged.
`LoadComponentFromBytes` has no such check and always re-parses and
overwrites. -/
theorem c2_file_load_idempotent (fuel : Nat) (env : Env) (st : Store)
    (filename storageName : String) (c : Component)
    (h : storeFind st storageName = some c) :
    loadComponentFromFile (fuel + 1) env st filename storageName = some (.ok c, st, []) :=
  loadComponentFromFile_hit fuel env st filename storageName c h

/-- C2 witness: a concrete cache hit returning the stored sentinel. -/
theorem c2_file_load_idempotent_witness :
    storeFind [("k", oldComp)] "k" = some oldComp ∧
    loadComponentFromFile 3 reloadEnv [("k", oldComp)] "file.json" "k" =
      some (.ok oldComp, [("k", oldComp)], []) :=
  ⟨rfl, c2_file_load_idempotent 2 reloadEnv [("k", oldComp)] "file.json" "k" oldComp rfl⟩

/-- C3 counterexample: the load error does not name the offending mesh
index: a component whose failing mesh sits at index 1 and one whose
identical failing mesh sits at index 0 produce the very same result,
and the error message contains no digit at all, so it cannot identify
the mesh index.  (It does name the offending file, and the store is
unchanged.) -/
theorem c3_error_lacks_mesh_index_counterexample :
    loadComponentFromBytes 1 c3env [] 1 "k" "d/" =
      some (.error (binReadErrMsg "x.bin" "no such file"), [],
        [.parseJson, .readBin "d/x.bin"]) ∧
    loadComponentFromBytes 1 c3env [] 2 "k" "d/" =
      some (.error (binReadErrMsg "x.bin" "no such file"), [],
        [.parseJson, .readBin "d/x.bin"]) ∧
    comp31.meshes.indexOf meshBad = 1 ∧ comp32.meshes.indexOf meshBad = 0 ∧
    (binReadErrMsg "x.bin" "no such file").toList.all (fun ch => !ch.isDigit) = true :=
  ⟨rfl, rfl, by decide, by decide, by decide⟩

/-- C3 (amended): if any mesh with a non-empty `binFile` fails to read
or decode, `LoadComponentFromBytes` returns that error — whose message
names the offending bin file, though not the mesh index — and returns
the store unchanged, so the component is not registered under
`storageName` (fail-fast, no partial registration). -/
theorem c3_mesh_failure_fail_fast (fuel : Nat) (env : Env) (st : Store) (bytes : Bytes)
    (storageName dirPath : String) (parsed : Component) (e : String) (mtr : List Event)
    (hU : env.unmarshal bytes = .ok parsed)
    (hM : loadMeshes env dirPath parsed.meshes = (.error e, mtr)) :
    loadComponentFromBytes fuel env st bytes storageName dirPath =
      some (.error e, st, .parseJson :: mtr) ∧
    ∃ m ∈ parsed.meshes, 0 < m.binFile.length ∧
      ((∃ io, e = binReadErrMsg m.binFile io) ∨ (∃ de, e = binDecodeErrMsg m.binFile de)) :=
  ⟨loadComponentFromBytes_meshError fuel env st bytes storageName dirPath parsed e mtr hU hM,
   loadMeshes_error env dirPath parsed.meshes e mtr hM⟩

/-- C3 witness: the concrete failing mesh read, fail-fast with the
store left empty. -/
theorem c3_mesh_failure_fail_fast_witness :
    c3env.unmarshal 1 = .ok comp31 ∧
    loadMeshes c3env "d/" comp31.meshes =
      (.error (binReadErrMsg "x.bin" "no such file"), [.readBin "d/x.bin"]) ∧
    (loadComponentFromBytes 1 c3env [] 1 "k" "d/" =
        some (.error (binReadErrMsg "x.bin" "no such file"), [],
          .parseJson :: [.readBin "d/x.bin"]) ∧
      ∃ m ∈ comp31.meshes, 0 < m.binFile.length ∧
        ((∃ io, binReadErrMsg "x.bin" "no such file" = binReadErrMsg m.binFile io) ∨
         (∃ de, binReadErrMsg "x.bin" "no such file" = binDecodeErrMsg m.binFile de))) :=
  ⟨rfl, rfl,
   c3_mesh_failure_fail_fast 1 c3env [] 1 "k" "d/" comp31
     (binReadErrMsg "x.bin" "no such file") [.readBin "d/x.bin"] rfl rfl⟩

/-- C4: during a successful `LoadComponentFromBytes`, the recursive
child loads recorded in the trace are exactly one per child reference
whose base file name (directory stripped) is not already a store key —
each invoked with path `dirPath ++ reference.file` and with the
parent's own `storageName` as the storage key — while references whose
base file name is already stored are skipped. -/
theorem c4_children_skip_or_parent_key (fuel : Nat) (env : Env) (st : Store)
    (bytes : Bytes) (storageName dirPath : String) (parsed : Component)
    (ms : List Mesh) (mtr : List Event)
    (hU : env.unmarshal bytes = .ok parsed)
    (hM : loadMeshes env dirPath parsed.meshes = (.ok ms, mtr)) :
    ∃ comp st2 tr,
      loadComponentFromBytes (fuel + 1) env st bytes storageName dirPath =
        some (.ok comp, st2, tr) ∧
      tr.filter isChildLoad =
        parsed.childReferences.filterMap (fun ref =>
          if (storeFind (storeInsert st storageName comp) (splitPath ref.file).2).isSome
          then none
          else some (Event.childLoad (dirPath ++ ref.file) storageName)) := by
  refine ⟨{ parsed with componentDirPath := dirPath, meshes := ms }, _, _,
    loadComponentFromBytes_success fuel env st bytes storageName dirPath parsed ms mtr hU hM,
    ?_⟩
  have hmtr : mtr.filter isChildLoad = [] := by
    apply List.filter_eq_nil_iff.mpr
    intro a ha
    simp [loadMeshes_no_childLoad env dirPath parsed.meshes a (by rw [hM]; exact ha)]
  have httr : (loadTextures env dirPath ms).filter isChildLoad = [] := by
    apply List.filter_eq_nil_iff.mpr
    intro a ha
    simp [loadTextures_no_childLoad env dirPath ms a ha]
  have hctr := List.filter_eq_self.mpr
    (childLoadTrace_all_childLoad
      (storeInsert st storageName { parsed with componentDirPath := dirPath, meshes := ms })
      dirPath storageName parsed.childReferences)
  simp only [List.filter_cons, List.filter_append, hmtr, httr, hctr]
  simp [isChildLoad, childLoadTrace]

/-- C4 witness: with `leg.json` already stored, the first reference is
skipped and the second spawns a child load on `dir/sub/new.json` keyed
by the parent's storage name `p.json`. -/
theorem c4_children_skip_or_parent_key_witness :
    c4env.unmarshal 9 = .ok c4Comp ∧
    loadMeshes c4env "dir/" c4Comp.meshes = (.ok [], []) ∧
    (∃ comp st2 tr,
      loadComponentFromBytes 1 c4env instStore 9 "p.json" "dir/" =
        some (.ok comp, st2, tr) ∧
      tr.filter isChildLoad =
        c4Comp.childReferences.filterMap (fun ref =>
          if (storeFind (storeInsert instStore "p.json" comp) (splitPath ref.file).2).isSome
          then none
          else some (Event.childLoad ("dir/" ++ ref.file) "p.json"))) :=
  ⟨rfl, rfl,
   c4_children_skip_or_parent_key 0 c4env instStore 9 "p.json" "dir/" c4Comp [] [] rfl rfl⟩

/-- C5: on every load via `LoadComponentFromBytes` that reaches child
processing, the `insertStore storageName` event precedes every
recursive child load in the trace: the prefix before it is free of
`childLoad` events, so no child load runs while `storageName` is absent
from the store. -/
theorem c5_insert_before_child_loads (fuel : Nat) (env : Env) (st : Store)
    (bytes : Bytes) (storageName dirPath : String) (parsed : Component)
    (ms : List Mesh) (mtr : List Event)
    (hU : env.unmarshal bytes = .ok parsed)
    (hM : loadMeshes env dirPath parsed.meshes = (.ok ms, mtr)) :
    ∃ comp st2 t1 t2,
      loadComponentFromBytes (fuel + 1) env st bytes storageName dirPath =
        some (.ok comp, st2, t1 ++ Event.insertStore storageName :: t2) ∧
      t1.filter isChildLoad = [] := by
  refine ⟨{ parsed with componentDirPath := dirPath, meshes := ms },
    storeInsert st storageName { parsed with componentDirPath := dirPath, meshes := ms },
    Event.parseJson :: (mtr ++ loadTextures env dirPath ms),
    childLoadTrace
      (storeInsert st storageName { parsed with componentDirPath := dirPath, meshes := ms })
      dirPath storageName parsed.childReferences, ?_, ?_⟩
  · exact loadComponentFromBytes_success fuel env st bytes storageName dirPath parsed ms mtr hU hM
  · have hmtr : mtr.filter isChildLoad = [] := by
      apply List.filter_eq_nil_iff.mpr
      intro a ha
      simp [loadMeshes_no_childLoad env dirPath parsed.meshes a (by rw [hM]; exact ha)]
    have httr : (loadTextures env dirPath ms).filter isChildLoad = [] := by
      apply List.filter_eq_nil_iff.mpr
      intro a ha
      simp [loadTextures_no_childLoad env dirPath ms a ha]
    simp only [List.filter_cons, List.filter_append, hmtr, httr]
    simp [isChildLoad]

/-- C5 witness: the concrete cyclic component's load inserts before its
single child load. -/
theorem c5_insert_before_child_loads_witness :
    cycEnv.unmarshal 1 = .ok cycCompA ∧
    loadMeshes cycEnv "" cycCompA.meshes = (.ok [], []) ∧
    (∃ comp st2 t1 t2,
      loadComponentFromBytes 1 cycEnv [] 1 "a.json" "" =
        some (.ok comp, st2, t1 ++ Event.insertStore "a.json" :: t2) ∧
      t1.filter isChildLoad = []) :=
  ⟨rfl, rfl,
   c5_insert_before_child_loads 0 cycEnv [] 1 "a.json" "" cycCompA [] [] rfl rfl⟩

/-- C6: whenever the JSON parses and every mesh binary loads, the load
succeeds and registers the component under `storageName` with a nil
error, for every behavior of the texture manager — texture failures
(on the generic list, diffuse, normals or specular paths) never fail
the load, since the environment's `loadTexture` is universally
quantified here. -/
theorem c6_texture_failures_nonfatal (fuel : Nat) (env : Env) (st : Store)
    (bytes : Bytes) (storageName dirPath : String) (parsed : Component)
    (ms : List Mesh) (mtr : List Event)
    (hU : env.unmarshal bytes = .ok parsed)
    (hM : loadMeshes env dirPath parsed.meshes = (.ok ms, mtr)) :
    ∃ comp st2 tr,
      loadComponentFromBytes (fuel + 1) env st bytes storageName dirPath =
        some (.ok comp, st2, tr) ∧
      storeFind st2 storageName = some comp :=
  ⟨{ parsed with componentDirPath := dirPath, meshes := ms }, _, _,
   loadComponentFromBytes_success fuel env st bytes storageName dirPath parsed ms mtr hU hM,
   storeFind_insert_self st storageName _⟩

/-- C6 witness: a component whose only diffuse texture fails to load
(every `loadTexture` in `texEnv` fails) still loads and registers. -/
theorem c6_texture_failures_nonfatal_witness :
    texEnv.unmarshal 3 = .ok texComp ∧
    loadMeshes texEnv "art/" texComp.meshes = (.ok [texMesh], []) ∧
    texEnv.loadTexture "skin.png" "art/skin.png" = false ∧
    (∃ comp st2 tr,
      loadComponentFromBytes 1 texEnv [] 3 "tex.json" "art/" =
        some (.ok comp, st2, tr) ∧
      storeFind st2 "tex.json" = some comp) :=
  ⟨rfl, rfl, rfl,
   c6_texture_failures_nonfatal 0 texEnv [] 3 "tex.json" "art/" texComp [texMesh] [] rfl rfl⟩

/-- C7: every child instance attached by `GetRenderableInstance` comes
from a resolvable child reference and its position equals that
reference's stored location exactly — the environment (and with it the
child component's own renderable position and stored offset) is
universally quantified, so they never influence the child's position. -/
theorem c7_child_position_equals_reference (fuel : Nat) (env : Env) (st : Store)
    (comp : Component) (r : Renderable) (tr : List Event)
    (h : getRenderableInstance fuel env st comp = some (r, tr)) :
    ∃ ks, r.children = (env.getRenderable comp).children ++ ks ∧
      ∀ k ∈ ks, ∃ cref ∈ comp.childReferences,
        (∃ cc, storeFind st (splitPath cref.file).2 = some cc) ∧
        k.location = cref.location := by
  cases fuel with
  | zero => simp [getRenderableInstance] at h
  | succ f =>
    cases hic : instanceChildren (getRenderableInstance f env st) st
        comp.childReferences comp.name with
    | none => simp [getRenderableInstance, hic] at h
    | some p =>
      obtain ⟨ks, tr2⟩ := p
      simp only [getRenderableInstance, hic, Option.some.injEq, Prod.mk.injEq] at h
      obtain ⟨h1, h2⟩ := h
      refine ⟨ks, ?_, ?_⟩
      · rw [← h1]
        rfl
      · intro k hk
        obtain ⟨cref, hm, cc, rc, tr1, hf, hi, hkk⟩ :=
          instanceChildren_mem _ st comp.childReferences comp.name ks tr2 hic k hk
        exact ⟨cref, hm, ⟨cc, hf⟩, by rw [hkk]; rfl⟩

/-- C7 witness: the leg child instance sits exactly at the reference's
override (1,2,3), not at the leg's own renderable position (7,8,9). -/
theorem c7_child_position_equals_reference_witness :
    getRenderableInstance 2 instEnv instStore parentComp =
      some (Renderable.mk (0, 0, 0) [Renderable.mk (1, 2, 3) []],
        [Event.logMissingChild "Table" "ghost.json"]) ∧
    instEnv.getRenderable childLeaf = Renderable.mk (7, 8, 9) [] ∧
    (∃ ks, (Renderable.mk (0, 0, 0) [Renderable.mk (1, 2, 3) []] : Renderable).children =
        (instEnv.getRenderable parentComp).children ++ ks ∧
      ∀ k ∈ ks, ∃ cref ∈ parentComp.childReferences,
        (∃ cc, storeFind instStore (splitPath cref.file).2 = some cc) ∧
        k.location = cref.location) :=
  ⟨rfl, rfl,
   c7_child_position_equals_reference 2 instEnv instStore parentComp
     (Renderable.mk (0, 0, 0) [Renderable.mk (1, 2, 3) []])
     [Event.logMissingChild "Table" "ghost.json"] rfl⟩

/-- C8: `GetRenderableInstance` never fails on a missing child: whenever
it returns, every child reference whose base file name is not a store
key has been logged with a `logMissingChild` event and contributes no
subtree, while exactly one child instance is attached per resolvable
reference; and when every resolvable child is a leaf component, fuel 2
(or more) always suffices for the call to return an instance — the
function has no error result at all. -/
theorem c8_missing_child_logged_and_omitted (env : Env) (st : Store) (comp : Component) :
    (∀ fuel r tr, getRenderableInstance fuel env st comp = some (r, tr) →
      (∀ cref ∈ comp.childReferences, storeFind st (splitPath cref.file).2 = none →
        Event.logMissingChild comp.name cref.file ∈ tr) ∧
      ∃ ks, r.children = (env.getRenderable comp).children ++ ks ∧
        ks.length = (comp.childReferences.filter
          (fun cref => (storeFind st (splitPath cref.file).2).isSome)).length) ∧
    ((∀ cref ∈ comp.childReferences, ∀ cc,
        storeFind st (splitPath cref.file).2 = some cc → cc.childReferences = []) →
      ∀ fuel, ∃ r tr, getRenderableInstance (fuel + 2) env st comp = some (r, tr)) := by
  constructor
  · intro fuel r tr h
    cases fuel with
    | zero => simp [getRenderableInstance] at h
    | succ f =>
      cases hic : instanceChildren (getRenderableInstance f env st) st
          comp.childReferences comp.name with
      | none => simp [getRenderableInstance, hic] at h
      | some p =>
        obtain ⟨ks, tr2⟩ := p
        simp only [getRenderableInstance, hic, Option.some.injEq, Prod.mk.injEq] at h
        obtain ⟨h1, h2⟩ := h
        constructor
        · intro cref hm hn
          rw [← h2]
          exact instanceChildren_missing_log _ st comp.childReferences comp.name
            ks tr2 hic cref hm hn
        · refine ⟨ks, ?_, instanceChildren_length _ st comp.childReferences comp.name
            ks tr2 hic⟩
          rw [← h1]
          rfl
  · intro hleaf fuel
    obtain ⟨ks, tr, hic⟩ :=
      instanceChildren_total_of_leaf env st comp.childReferences comp.name fuel hleaf
    refine ⟨Renderable.mk (env.getRenderable comp).location
      ((env.getRenderable comp).children ++ ks), tr, ?_⟩
    rw [getRenderableInstance_succ, hic]

/-- C8 witness: the ghost child is logged and omitted while the leg
child is attached, and fuel 2 suffices on this component. -/
theorem c8_missing_child_logged_and_omitted_witness :
    getRenderableInstance 2 instEnv instStore parentComp =
      some (Renderable.mk (0, 0, 0) [Renderable.mk (1, 2, 3) []],
        [Event.logMissingChild "Table" "ghost.json"]) ∧
    storeFind instStore (splitPath "ghost.json").2 = none ∧
    ((∀ cref ∈ parentComp.childReferences,
        storeFind instStore (splitPath cref.file).2 = none →
        Event.logMissingChild parentComp.name cref.file ∈
          [Event.logMissingChild "Table" "ghost.json"]) ∧
      ∃ ks, (Renderable.mk (0, 0, 0) [Renderable.mk (1, 2, 3) []] : Renderable).children =
          (instEnv.getRenderable parentComp).children ++ ks ∧
        ks.length = (parentComp.childReferences.filter
          (fun cref => (storeFind instStore (splitPath cref.file).2).isSome)).length) :=
  ⟨rfl, rfl,
   (c8_missing_child_logged_and_omitted instEnv instStore parentComp).1 2
     (Renderable.mk (0, 0, 0) [Renderable.mk (1, 2, 3) []])
     [Event.logMissingChild "Table" "ghost.json"] rfl⟩

/-- C9: after `Destroy`, lookup by any name reports not-found (the
store is empty), and every component that was stored has had its own
destruction recorded. -/
theorem c9_destroy_clears_store (st : Store) :
    (∀ name, (getComponent (managerDestroy st).1 name).2 = false) ∧
    (∀ k c, storeFind st k = some c →
      Event.destroyComp c.name ∈ (managerDestroy st).2) := by
  constructor
  · intro name
    rfl
  · intro k c h
    simp only [managerDestroy]
    exact List.mem_map.mpr ⟨(k, c), storeFind_mem h, rfl⟩

/-- C9 witness: destroying the demo store empties it and records the
destruction of both stored components. -/
theorem c9_destroy_clears_store_witness :
    (getComponent (managerDestroy demoStore).1 "a.json").2 = false ∧
    storeFind demoStore "b.json" = some cycCompB ∧
    Event.destroyComp "B" ∈ (managerDestroy demoStore).2 :=
  ⟨(c9_destroy_clears_store demoStore).1 "a.json", rfl,
   (c9_destroy_clears_store demoStore).2 "b.json" cycCompB rfl⟩

/-- C10: the location override is unconditional: a child reference whose
location is the zero vector (the Go zero value when the JSON supplied no
override) still has its resolved child instance's position overwritten
to zero, discarding whatever position the child component's own
renderable carried. -/
theorem c10_zero_override_replaces_child_position (fuel : Nat) (env : Env) (st : Store)
    (comp : Component) (cref : ChildReference) (cc : Component)
    (r : Renderable) (tr : List Event)
    (h1 : comp.childReferences = [cref]) (h2 : cref.location = zeroVec)
    (h3 : storeFind st (splitPath cref.file).2 = some cc)
    (h : getRenderableInstance (fuel + 1) env st comp = some (r, tr)) :
    ∃ rc tr1, getRenderableInstance fuel env st cc = some (rc, tr1) ∧
      r.children = (env.getRenderable comp).children ++
        [Renderable.mk zeroVec rc.children] := by
  cases hrc : getRenderableInstance fuel env st cc with
  | none => simp [getRenderableInstance, h1, instanceChildren, h3, hrc] at h
  | some p =>
    obtain ⟨rc, tr1⟩ := p
    refine ⟨rc, tr1, rfl, ?_⟩
    simp only [getRenderableInstance, h1, instanceChildren, h3, hrc,
      Option.some.injEq, Prod.mk.injEq] at h
    obtain ⟨hr, ht⟩ := h
    rw [← hr, ← h2]
    rfl

/-- C10 witness: the leg's own renderable sits at (7,8,9), yet the
attached child instance sits at the zero vector from the reference. -/
theorem c10_zero_override_replaces_child_position_witness :
    zeroRefComp.childReferences = [⟨"leg.json", zeroVec⟩] ∧
    storeFind instStore (splitPath "leg.json").2 = some childLeaf ∧
    getRenderableInstance 2 instEnv instStore zeroRefComp =
      some (Renderable.mk (0, 0, 0) [Renderable.mk (0, 0, 0) []], []) ∧
    instEnv.getRenderable childLeaf = Renderable.mk (7, 8, 9) [] ∧
    (∃ rc tr1, getRenderableInstance 1 instEnv instStore childLeaf = some (rc, tr1) ∧
      (Renderable.mk (0, 0, 0) [Renderable.mk (0, 0, 0) []] : Renderable).children =
        (instEnv.getRenderable zeroRefComp).children ++
          [Renderable.mk zeroVec rc.children]) :=
  ⟨rfl, rfl, rfl, rfl,
   c10_zero_override_replaces_child_position 1 instEnv instStore zeroRefComp
     ⟨"leg.json", zeroVec⟩ childLeaf
     (Renderable.mk (0, 0, 0) [Renderable.mk (0, 0, 0) []]) [] rfl rfl rfl rfl⟩

end Fizzle
